import Mathlib

/-!
# Verification of the helm-deploy-action configuration-to-command-plan compiler

Shallow embedding of the deployment orchestrator's core:

* `src/config.ts` — the loosely-typed input normalizers (`parseValues`,
  `parseValueFiles`, `parseDependencies`, the repo-alias default);
* `src/url.ts` — the URL scheme-rewrite helpers (`replaceURLProtocol`,
  `fixReplaceURLProtocol`) together with a model of the WHATWG URL
  protocol setter it works around;
* `src/deploy.ts` — the command-plan builder / execution sequencer
  (`deployHelmChart`, `buildHelmConfigFiles`, `buildRepositoryConfigYaml`,
  `buildRegistryConfigJSON`, `helmDelete`, `helmPush`, `helmUpgrade`,
  `renderFiles`).

JavaScript dynamic values are embedded as the inductive `JSVal`; JavaScript
truthiness and `typeof` are modelled explicitly.  The sequencer's side
effects (subprocess spawns, temporary-file creation, file writes, file
removals, deployment-status notifications) are embedded as an explicit
event trace (`Event`, `RunResult`): each sequencer function returns the
ordered list of events it produced together with an optional error, the
shallow counterpart of a thrown exception.  The filesystem consulted by
`pathExists` is a list of existing paths.  Out-of-scope standard-library
capabilities (JSON parsing, the per-file mustache render) are parameters.
-/

namespace HelmDeployAction

/-! ## JavaScript dynamic values (loosely-typed action inputs) -/

/-- A JavaScript runtime value, as far as the input normalizers in
`src/config.ts` can observe one: `undefined`, `null`, booleans, numbers,
strings, arrays and plain objects. -/
inductive JSVal where
  | undef : JSVal
  | null : JSVal
  | bool (b : Bool) : JSVal
  | num (n : Int) : JSVal
  | str (s : String) : JSVal
  | arr (xs : List JSVal) : JSVal
  | obj (fields : List (String × JSVal)) : JSVal
deriving Inhabited

/-- JavaScript truthiness: `undefined`, `null`, `false`, `0` and `""` are
falsy; every array and object (even empty ones) is truthy. -/
def JSVal.truthy : JSVal → Bool
  | .undef => false
  | .null => false
  | .bool b => b
  | .num n => n != 0
  | .str s => s != ""
  | .arr _ => true
  | .obj _ => true

/-- `typeof v === 'object'`: true for `null`, arrays and plain objects. -/
def JSVal.typeofObject : JSVal → Bool
  | .null => true
  | .arr _ => true
  | .obj _ => true
  | _ => false

/-- `Array.isArray`. -/
def JSVal.isArray : JSVal → Bool
  | .arr _ => true
  | _ => false

mutual

/-- `JSON.stringify`, modelled for the value shapes `JSVal` can hold
(string escaping is not modelled; only the shape of the output matters to
the development, in particular that objects and arrays serialize to
non-empty text). -/
def jsonStringify : JSVal → String
  | .undef => "null"
  | .null => "null"
  | .bool b => if b then "true" else "false"
  | .num n => toString n
  | .str s => "\"" ++ s ++ "\""
  | .arr xs => "[" ++ jsonStringifyList xs ++ "]"
  | .obj fields => "\x7b" ++ jsonStringifyFields fields ++ "\x7d"

/-- Comma-joined serialization of array elements. -/
def jsonStringifyList : List JSVal → String
  | [] => ""
  | [x] => jsonStringify x
  | x :: y :: xs => jsonStringify x ++ "," ++ jsonStringifyList (y :: xs)

/-- Comma-joined serialization of object fields. -/
def jsonStringifyFields : List (String × JSVal) → String
  | [] => ""
  | [(k, v)] => "\"" ++ k ++ "\":" ++ jsonStringify v
  | (k, v) :: f :: fs =>
    "\"" ++ k ++ "\":" ++ jsonStringify v ++ "," ++ jsonStringifyFields (f :: fs)

end

/-! ## `src/config.ts` — input normalizers -/

/-- `parseValues` (config.ts): empty/absent input becomes the canonical
empty-object document `"{}"`, objects (and arrays, which are `typeof
'object'`) are serialized, strings pass through verbatim. -/
def parseValues (values : JSVal) : JSVal :=
  if !values.truthy then .str "{}"
  else if values.typeofObject then .str (jsonStringify values)
  else values

/-- The tail of `parseValueFiles` (config.ts): `if
(!Array.isArray(fileList)) return []; return fileList.filter(f => !!f)`. -/
def parseValueFilesList (fileList : JSVal) : List JSVal :=
  match fileList with
  | .arr xs => xs.filter (·.truthy)
  | _ => []

/-- `parseValueFiles` (config.ts): a string input is `JSON.parse`d (on
parse failure the bare string becomes a one-element list), a non-array
result normalizes to the empty list, and falsy entries are dropped.  The
out-of-scope `JSON.parse` primitive is the parameter `jsonParse`
(`none` models a thrown parse error). -/
def parseValueFiles (jsonParse : String → Option JSVal) (files : JSVal) :
    List JSVal :=
  let fileList : JSVal :=
    match files with
    | .str s =>
      match jsonParse s with
      | some parsed => parsed
      | none => .arr [.str s]
    | v => v
  parseValueFilesList fileList

/-- `parseDependencies` (config.ts): a non-empty string must `JSON.parse`
(else the run fails), `typeof 'object'` inputs (arrays, objects, `null`)
are taken as-is, anything else leaves `depsObj` at `null`; a falsy
`depsObj` yields `[]`, an array is returned as-is, and a single object is
wrapped into a one-element list.  (The trailing `Array.isArray(deps)`
branch of the source is unreachable because arrays are `typeof 'object'`.) -/
def parseDependencies (jsonParse : String → Option JSVal) (deps : JSVal) :
    Except String (List JSVal) := do
  let depsObj : JSVal ←
    match deps with
    | .str s =>
      if s ≠ "" then
        match jsonParse s with
        | some parsed => Except.ok parsed
        | none => Except.error "dependencies must be a valid YAML or JSON array"
      else Except.ok .null
    | .null => Except.ok .null
    | .arr xs => Except.ok (.arr xs)
    | .obj fields => Except.ok (.obj fields)
    | _ => Except.ok .null
  if !depsObj.truthy then return []
  match depsObj with
  | .arr xs => return xs
  | v => return [v]

/-- `if (!conf.repoAlias) conf.repoAlias = 'source-chart-repo'`
(config.ts, end of `parseConfig`); `alias` is a reserved word in Lean, so
the field is called `aliasName` throughout. -/
def applyRepoAliasDefault (aliasName : String) : String :=
  if aliasName = "" then "source-chart-repo" else aliasName

/-! ## `src/url.ts` — URL scheme rewriting

A WHATWG `URL` object is embedded as its scheme together with the
remainder of its serialization (`href = scheme ++ ":" ++ rest`).  The
`url.protocol` setter silently refuses to switch between special schemes
(`http`, `https`, ...) and non-special schemes such as `oci`;
`fixReplaceURLProtocol` in the source exists precisely to detect that
silent refusal and force the change through `url.href` with the regex
replace `href.replace(/^[^:]+:/, protocol)`. -/

/-- A parsed WHATWG URL: scheme (without the `:`) and the rest of the
serialization (for `https://host/p` the rest is `//host/p`). -/
structure JSURL where
  scheme : String
  rest : String
deriving DecidableEq, Repr

/-- `url.protocol` getter: the scheme followed by `":"`. -/
def JSURL.protocol (u : JSURL) : String := u.scheme ++ ":"

/-- `url.href` getter. -/
def JSURL.href (u : JSURL) : String := u.scheme ++ ":" ++ u.rest

/-- The WHATWG special schemes. -/
def specialSchemes : List String := ["ftp", "file", "http", "https", "ws", "wss"]

/-- Whether a scheme is special. -/
def isSpecialScheme (s : String) : Bool := specialSchemes.contains s

/-- The scheme part of a protocol string: the characters before the first
`":"` (how the `url.protocol` setter reads its input). -/
def schemeOfProtocolString (p : String) : String :=
  ⟨p.data.takeWhile (· ≠ ':')⟩

/-- The WHATWG `url.protocol` setter, for the aspects this code exercises:
an empty scheme is rejected, and switching between a special and a
non-special scheme is silently refused (the URL is left unchanged);
otherwise the scheme is replaced. -/
def setProtocol (u : JSURL) (p : String) : JSURL :=
  let ns := schemeOfProtocolString p
  if ns = "" then u
  else if isSpecialScheme u.scheme = isSpecialScheme ns then { u with scheme := ns }
  else u

/-- `replaceProtocol` (url.ts): `href.replace(/^[^:]+:/, protocol)` — if
the text begins with one or more non-colon characters followed by a colon,
that prefix is replaced by `protocol`; otherwise the regex does not match
and the text is unchanged. -/
def replaceProtocol (href protocol : String) : String :=
  let pre := href.data.takeWhile (· ≠ ':')
  if 0 < pre.length ∧ pre.length < href.data.length then
    ⟨protocol.data ++ ((href.data.dropWhile (· ≠ ':')).drop 1)⟩
  else href

/-- Reparsing an `href` assigned to `url.href`: the scheme is the text
before the first colon, the rest is the text after it. -/
def reparseHref (href : String) : JSURL :=
  { scheme := ⟨href.data.takeWhile (· ≠ ':')⟩
    rest := ⟨(href.data.dropWhile (· ≠ ':')).drop 1⟩ }

/-- `fixReplaceURLProtocol` (url.ts): if the protocol setter had no effect
(the protocol still equals `oldProtocol`), force the replacement through
`url.href` and then `assert.notStrictEqual(url.protocol, oldProtocol)`;
the failed assertion is a thrown error, embedded as `Except.error`. -/
def fixReplaceURLProtocol (u : JSURL) (oldProtocol newProtocol : String) :
    Except String JSURL :=
  if u.protocol = oldProtocol then
    let fixed := reparseHref (replaceProtocol u.href newProtocol)
    if fixed.protocol = oldProtocol then
      Except.error "assertion failed: protocol was not replaced"
    else Except.ok fixed
  else Except.ok u

/-- `replaceURLProtocol` (url.ts): if the URL's protocol already equals
the requested one, nothing happens; otherwise the protocol setter is
applied and `fixReplaceURLProtocol` repairs a silently refused change. -/
def replaceURLProtocol (u : JSURL) (protocol : String) : Except String JSURL :=
  let old := u.protocol
  if old ≠ protocol then
    let u' := setProtocol u protocol
    fixReplaceURLProtocol u' old protocol
  else Except.ok u

/-- `new URL(s)`: requires a non-empty scheme followed by a colon, else a
thrown `Invalid URL` error (scheme-character validation and normalization
are not modelled). -/
def parseURL (s : String) : Except String JSURL :=
  let pre := s.data.takeWhile (· ≠ ':')
  if 0 < pre.length ∧ pre.length < s.data.length then Except.ok (reparseHref s)
  else Except.error "Invalid URL"

/-- `url.toString()`. -/
def urlToString (u : JSURL) : String := u.href

/-! ## `src/deploy.ts` — data model -/

/-- The load-bearing fields of a parsed `Chart.yaml` manifest
(`HelmChart` in config.ts also carries descriptive metadata; only `name`
and `version` are read downstream). -/
structure HelmChart where
  name : String
  version : String
deriving DecidableEq, Repr

/-- `HelmRepo` (config.ts): one repository credential entry.  Optional
string fields are embedded as `String` with `""` for an absent value
(JavaScript treats `undefined` and `""` alike in every truthiness and
`is_defined` test these fields meet). -/
structure HelmRepo where
  url : String := ""
  aliasName : String := ""
  username : String := ""
  password : String := ""
deriving DecidableEq, Repr

/-- `HelmDeployConfig` (config.ts): the normalized deployment intent. -/
structure HelmDeployConfig where
  command : String := ""
  release : String := ""
  «namespace» : String := ""
  timeout : String := ""
  kubeconfigPath : String := ""
  kubeconfigInline : String := ""
  values : String := ""
  dry : Bool := false
  atomic : Bool := false
  valueFiles : List String := []
  chart : String := ""
  chartMetadata : Option HelmChart := none
  chartVersion : String := ""
  repo : String := ""
  repoAlias : String := ""
  repoUsername : String := ""
  repoPassword : String := ""
  useOCI : Bool := false
  dependencies : List HelmRepo := []
  appVersion : String := ""
  force : Bool := false
deriving DecidableEq, Repr

/-- `getRepoConfig` (config.ts). -/
def getRepoConfig (conf : HelmDeployConfig) : HelmRepo :=
  { url := conf.repo
    aliasName := conf.repoAlias
    username := conf.repoUsername
    password := conf.repoPassword }

/-- JavaScript `String.prototype.trim`: strip leading and trailing
whitespace (structurally, so that concrete runs evaluate). -/
def jsTrim (s : String) : String :=
  ⟨((s.data.dropWhile Char.isWhitespace).reverse.dropWhile Char.isWhitespace).reverse⟩

/-- `is_defined` (deploy.ts): defined and not whitespace-only. -/
def is_defined (v : String) : Bool := jsTrim v != ""

/-! ## Events: the sequencer's observable side effects -/

/-- One observable side effect of the sequencer, in program order:

* `exec args` — `helmExec(args)`, i.e. spawning `helm` with `args`;
* `createTmpFile path` — `tmp.fileSync` creating a transient file;
* `writeFile path content` — `fs.promises.writeFile`;
* `removeFile path` — a `removeCallback()` deleting a transient file;
* `statusEvent state` — the (best-effort) deployment-status notification.

The working-directory option passed to the `package`/`push` spawns is not
part of the event. -/
inductive Event where
  | exec (args : List String) : Event
  | createTmpFile (path : String) : Event
  | writeFile (path content : String) : Event
  | removeFile (path : String) : Event
  | statusEvent (state : String) : Event
deriving DecidableEq, Repr

/-- The outcome of (part of) a run: the events emitted so far and the
error that was thrown, if any (`none` = normal completion). -/
structure RunResult where
  events : List Event
  error : Option String
deriving DecidableEq, Repr

/-- The `helm` argument lists among a list of events, in order. -/
def execsIn (events : List Event) : List (List String) :=
  events.filterMap fun e =>
    match e with
    | .exec args => some args
    | _ => none

/-- The paths of files removed among a list of events, in order. -/
def removalsIn (events : List Event) : List String :=
  events.filterMap fun e =>
    match e with
    | .removeFile p => some p
    | _ => none

/-- The file-creating or file-writing events among a list of events. -/
def fileWritesIn (events : List Event) : List Event :=
  events.filter fun e =>
    match e with
    | .createTmpFile _ => true
    | .writeFile _ _ => true
    | _ => false

/-- The names of the per-run transient artifacts (the two `tmp.fileSync`
file names, the temporary kubeconfig name) and the
`DEPLOY_ACTION_DATA_HOME` directory the values file lives in. -/
structure TmpNames where
  registry : String
  repository : String
  kubeconfig : String
  dataHome : String
deriving DecidableEq, Repr

/-- `path.join(dataHome, file)` for the two shapes the sequencer uses. -/
def pathJoin (dir file : String) : String :=
  if dir = "." then file else dir ++ "/" ++ file

/-- The filesystem visible to `pathExists`: the list of existing paths. -/
def pathExists (fs : List String) (p : String) : Bool := fs.contains p

/-- `MissingConfigError` (config.ts): its message. -/
def missingMsg (key : String) : String := "required and not supplied: " ++ key

/-! ## `src/deploy.ts` — credential-artifact materialization -/

/-- One entry of the repository-list document: the source spreads a
`HelmRepo` (`{...d}` / `{...repo}`) and overrides `url` and
`pass_credentials_all`. -/
structure HelmRepoConfigEntry where
  url : String
  aliasName : String
  username : String
  password : String
  pass_credentials_all : Bool
deriving DecidableEq, Repr

/-- The per-entry URL rewrite in `buildRepositoryConfigYaml`:
`new URL(d.url)`, rewritten to the `oci:` scheme when `useOCI` is set,
then serialized back. -/
def rewriteRepoEntry (useOCI : Bool) (d : HelmRepo) :
    Except String HelmRepoConfigEntry := do
  let repoURL ← parseURL d.url
  let repoURL ← if useOCI then replaceURLProtocol repoURL "oci:" else pure repoURL
  return { url := urlToString repoURL
           aliasName := d.aliasName
           username := d.username
           password := d.password
           pass_credentials_all := true }

/-- A simple serialization of one repository entry (stands in for the
out-of-scope `YAML.stringify`; no theorem inspects this text). -/
def serializeRepoEntry (e : HelmRepoConfigEntry) : String :=
  "- name: " ++ e.aliasName ++ "\n  url: " ++ e.url ++
  "\n  username: " ++ e.username ++ "\n  password: " ++ e.password ++
  "\n  pass_credentials_all: " ++ (if e.pass_credentials_all then "true" else "false") ++ "\n"

/-- `buildRepositoryConfigYaml` (deploy.ts): every dependency with a
defined URL, then the primary repo if its URL is set, each with the OCI
rewrite applied when `useOCI` holds; an invalid URL is a thrown error. -/
def buildRepositoryConfigYaml (conf : HelmDeployConfig) : Except String String := do
  let repo := getRepoConfig conf
  let deps ← (conf.dependencies.filter fun d => is_defined d.url).mapM
    (rewriteRepoEntry conf.useOCI)
  let repositories ←
    if repo.url ≠ "" then do
      let entry ← rewriteRepoEntry conf.useOCI repo
      pure (deps ++ [entry])
    else pure deps
  return "apiVersion: \"\"\nrepositories:\n" ++
    String.join (repositories.map serializeRepoEntry)

/-- `buildRegistryConfigJSON` (deploy.ts): `{"auths": {<url>: {Username,
Password}}}` for the primary repo when its URL is set, else an empty auth
map (string escaping is not modelled). -/
def buildRegistryConfigJSON (conf : HelmDeployConfig) : String :=
  let repo := getRepoConfig conf
  if repo.url ≠ "" then
    "\x7b\"auths\":\x7b\"" ++ repo.url ++ "\":\x7b\"Username\":\"" ++ repo.username ++
      "\",\"Password\":\"" ++ repo.password ++ "\"\x7d\x7d\x7d"
  else "\x7b\"auths\":\x7b\x7d\x7d"

/-- `buildHelmConfigFiles` (deploy.ts): reject a half-supplied primary
credential pair, then create and write the registry-authentication file
and the repository-list file.  Only the primary pair is checked; the
dependency entries flow into `buildRepositoryConfigYaml` unchecked. -/
def buildHelmConfigFiles (nm : TmpNames) (conf : HelmDeployConfig) :
    List Event × Option String :=
  if is_defined conf.repoUsername && !is_defined conf.repoPassword then
    ([], some "supplied repo-username but missing repo-password")
  else if is_defined conf.repoPassword && !is_defined conf.repoUsername then
    ([], some "supplied repo-password but missing repo-username")
  else
    let registryConfigJSON := buildRegistryConfigJSON conf
    let es := [Event.createTmpFile nm.registry,
               Event.writeFile nm.registry registryConfigJSON]
    match buildRepositoryConfigYaml conf with
    | .error e => (es, some e)
    | .ok repositoryConfigYAML =>
      (es ++ [Event.createTmpFile nm.repository,
              Event.writeFile nm.repository repositoryConfigYAML], none)

/-! ## `src/deploy.ts` — value-file rendering -/

/-- `Promise.all` over the per-file render promises: the aggregate fails
with the first failure, succeeds when every file rendered. -/
def promiseAll : List (Except String Unit) → Except String Unit
  | [] => .ok ()
  | .ok () :: rest => promiseAll rest
  | .error e :: _ => .error e

/-- `renderFiles` (deploy.ts): maps the per-file render (read, mustache
render with `${{ ... }}` delimiters, write back — the out-of-scope
`renderOne` parameter) over the files, builds the aggregate promise, and
resolves **without awaiting it**: the aggregate's outcome is discarded, so
the function's own promise always resolves successfully. -/
def renderFiles (renderOne : String → Except String Unit) (files : List String) :
    Except String Unit :=
  let promises := files.map renderOne
  let _all := promiseAll promises
  Except.ok ()

/-! ## `src/deploy.ts` — the three command branches -/

/-- `helmDelete` (deploy.ts): require `release`, default the namespace,
append `--kubeconfig` when a path is set, spawn
`delete -n <namespace> [--kubeconfig <p>] <release>`, then report the
`inactive` status. -/
def helmDelete (conf : HelmDeployConfig) : List Event × Option String :=
  if conf.release = "" then ([], some (missingMsg "release"))
  else
    let ns := if conf.«namespace» = "" then "default" else conf.«namespace»
    let args := if conf.kubeconfigPath ≠ "" then ["--kubeconfig", conf.kubeconfigPath] else []
    ([Event.exec (["delete", "-n", ns] ++ args ++ [conf.release]),
      Event.statusEvent "inactive"], none)

/-- The URL a `push` publishes to: `new URL(conf.repo)`, rewritten to the
`oci:` scheme when `useOCI` is set. -/
def pushRepoURL (conf : HelmDeployConfig) : Except String JSURL := do
  let repoURL ← parseURL conf.repo
  if conf.useOCI then replaceURLProtocol repoURL "oci:" else pure repoURL

/-- The deterministic package path `helmPush` expects after the `package`
step: `<chart>/<name>-<version|override>.tgz`. -/
def expectedPackagePath (conf : HelmDeployConfig) (meta : HelmChart) : String :=
  conf.chart ++ "/" ++ meta.name ++ "-" ++
    (if conf.chartVersion ≠ "" then conf.chartVersion else meta.version) ++ ".tgz"

/-- `helmPush` (deploy.ts): require an existing chart path with resolved
metadata and a repo; spawn `inspect chart`, `dependency update` (with both
credential-artifact paths), `package` (with version overrides, run inside
the chart directory); assert that the expected package path exists (a
missing package is a thrown error, no retry); then spawn `push` to the
(possibly OCI-rewritten) repo URL with both credential-artifact paths. -/
def helmPush (nm : TmpNames) (fs : List String) (conf : HelmDeployConfig) :
    List Event × Option String :=
  if conf.chart = "" then ([], some (missingMsg "chart"))
  else if !pathExists fs conf.chart then ([], some (conf.chart ++ " does not exist"))
  else
    match conf.chartMetadata with
    | none => ([], some "have chart metadata from Chart.yaml")
    | some meta =>
      if meta.name = "" then ([], some "have chart name from Chart.yaml")
      else if meta.version = "" then ([], some "have chart version from Chart.yaml")
      else if conf.repo = "" then ([], some (missingMsg "repo"))
      else
        let es := [Event.exec ["inspect", "chart", conf.chart],
                   Event.exec ["dependency", "update", conf.chart,
                               "--registry-config", nm.registry,
                               "--repository-config", nm.repository]]
        let args := (if conf.chartVersion ≠ "" then ["--version", conf.chartVersion] else [])
          ++ (if conf.appVersion ≠ "" then ["--app-version", conf.appVersion] else [])
        let es := es ++ [Event.exec (["package"] ++ args ++ [conf.chart])]
        let packaged := expectedPackagePath conf meta
        if !pathExists fs packaged then
          (es, some ("Could not find packaged chart.Expected " ++ packaged))
        else
          match pushRepoURL conf with
          | .error e => (es, some e)
          | .ok repoURL =>
            (es ++ [Event.exec (["push", packaged, urlToString repoURL,
                                 "--registry-config", nm.registry,
                                 "--repository-config", nm.repository])], none)

/-- The conditional flag list `helmUpgrade` builds before the spawn:
namespace, kubeconfig, `--dry-run`, `--version`, `--timeout`, `--atomic`,
one `--values` per value file (in listed order, via the source's
`for`-loop, embedded as a fold), and a final `--values <valuesFile>` when
the inline values document is non-empty. -/
def helmUpgradeArgs (conf : HelmDeployConfig) (valuesFile : String) : List String :=
  let args : List String := []
  let args := if conf.«namespace» ≠ "" then args ++ ["-n", conf.«namespace»] else args
  let args := if conf.kubeconfigPath ≠ "" then args ++ ["--kubeconfig", conf.kubeconfigPath] else args
  let args := if conf.dry then args ++ ["--dry-run"] else args
  let args := if conf.chartVersion ≠ "" then args ++ ["--version", conf.chartVersion] else args
  let args := if conf.timeout ≠ "" then args ++ ["--timeout", conf.timeout] else args
  let args := if conf.atomic then args ++ ["--atomic"] else args
  let args := conf.valueFiles.foldl (fun a f => a ++ ["--values", f]) args
  let args := if conf.values ≠ "" then args ++ ["--values", valuesFile] else args
  args

/-- The full argument list of the `upgrade` spawn. -/
def helmUpgradeExecArgs (nm : TmpNames) (conf : HelmDeployConfig)
    (valuesFile : String) : List String :=
  ["upgrade", conf.release, conf.chart, "--install", "--wait",
   "--registry-config", nm.registry, "--repository-config", nm.repository]
  ++ helmUpgradeArgs conf valuesFile

/-- `helmUpgrade` (deploy.ts): require `release` and `chart`, spawn the
upgrade with both credential-artifact paths and the conditional flags,
then report the `success` status. -/
def helmUpgrade (nm : TmpNames) (conf : HelmDeployConfig) (valuesFile : String) :
    List Event × Option String :=
  if conf.release = "" then ([], some (missingMsg "release"))
  else if conf.chart = "" then ([], some (missingMsg "chart"))
  else ([Event.exec (helmUpgradeExecArgs nm conf valuesFile),
         Event.statusEvent "success"], none)

/-! ## `src/deploy.ts` — the sequencer -/

/-- The repository-index-refresh spawn:
`repo update --registry-config <reg> --repository-config <repo>`. -/
def repoUpdateArgs (nm : TmpNames) : List String :=
  ["repo", "update", "--registry-config", nm.registry,
   "--repository-config", nm.repository]

/-- The `conf.kubeconfigPath = kubeconfigFile.name` assignment performed
when an inline kubeconfig is supplied: the user-supplied path is
overwritten with the temporary kubeconfig file's path before the
operation-specific branch runs. -/
def kubeResolvedConfig (nm : TmpNames) (conf : HelmDeployConfig) :
    HelmDeployConfig :=
  if conf.kubeconfigInline ≠ "" then { conf with kubeconfigPath := nm.kubeconfig }
  else conf

/-- The body of the `try` block of `deployHelmChart`: print the helm
version, refresh the repository index when a primary repo URL or at least
one dependency is configured, write the inline values file when non-empty,
materialize the inline kubeconfig (overwriting `kubeconfigPath`), await
the (immediately resolved) `renderFiles` promise, then dispatch on the
command (the `switch` is embedded as an if-chain). -/
def deployTryBody (nm : TmpNames) (fs : List String)
    (renderOne : String → Except String Unit) (conf : HelmDeployConfig) :
    List Event × Option String :=
  let es := [Event.exec ["version"]]
  let es := es ++
    (if is_defined conf.repo || !conf.dependencies.isEmpty then
      [Event.exec (repoUpdateArgs nm)]
    else [])
  let valuesFile := pathJoin nm.dataHome "values.yml"
  let es := es ++
    (if conf.values ≠ "" then [Event.writeFile valuesFile conf.values] else [])
  let es := es ++
    (if conf.kubeconfigInline ≠ "" then
      [Event.writeFile nm.kubeconfig conf.kubeconfigInline]
    else [])
  let conf := kubeResolvedConfig nm conf
  match renderFiles renderOne (conf.valueFiles ++ [valuesFile]) with
  | .error e => (es, some e)
  | .ok () =>
    let step : List Event × Option String :=
      if conf.command = "delete" then helmDelete conf
      else if conf.command = "push" then helmPush nm fs conf
      else if conf.command = "upgrade" then helmUpgrade nm conf valuesFile
      else ([], some ("unkown helm command: " ++ conf.command))
    (es ++ step.1, step.2)

/-- `deployHelmChart` (deploy.ts): report the `pending` status, require a
command, build the two credential-artifact files, create the temporary
kubeconfig file, run the `try` body; on a thrown error the `catch` block
removes the repository-list file, the registry-authentication file and the
temporary kubeconfig file (in that order) and rethrows.  On normal
completion nothing is removed (the `tmp` library's graceful cleanup at
process exit is outside the run). -/
def deployHelmChart (nm : TmpNames) (fs : List String)
    (renderOne : String → Except String Unit) (conf : HelmDeployConfig) :
    RunResult :=
  if conf.command = "" then
    { events := [Event.statusEvent "pending"], error := some (missingMsg "command") }
  else
    match (buildHelmConfigFiles nm conf).2 with
    | some e =>
      { events := [Event.statusEvent "pending"] ++ (buildHelmConfigFiles nm conf).1
        error := some e }
    | none =>
      match (deployTryBody nm fs renderOne conf).2 with
      | none =>
        { events := [Event.statusEvent "pending"] ++ (buildHelmConfigFiles nm conf).1 ++
            [Event.createTmpFile nm.kubeconfig] ++ (deployTryBody nm fs renderOne conf).1
          error := none }
      | some e =>
        { events := [Event.statusEvent "pending"] ++ (buildHelmConfigFiles nm conf).1 ++
            [Event.createTmpFile nm.kubeconfig] ++ (deployTryBody nm fs renderOne conf).1 ++
            [Event.removeFile nm.repository, Event.removeFile nm.registry,
             Event.removeFile nm.kubeconfig]
          error := some e }

/-! ## Helper lemmas -/

theorem takeWhile_append_of_all {α : Type} (p : α → Bool) (a b : List α)
    (h : ∀ c ∈ a, p c) : (a ++ b).takeWhile p = a ++ b.takeWhile p := by
  induction a with
  | nil => simp
  | cons hd tl ih =>
    simp only [List.cons_append, List.takeWhile_cons, h hd (by simp), if_true]
    rw [ih fun c hc => h c (by simp [hc])]

theorem dropWhile_append_of_all {α : Type} (p : α → Bool) (a b : List α)
    (h : ∀ c ∈ a, p c) : (a ++ b).dropWhile p = b.dropWhile p := by
  induction a with
  | nil => simp
  | cons hd tl ih =>
    simp only [List.cons_append, List.dropWhile_cons, h hd (by simp), if_true]
    exact ih fun c hc => h c (by simp [hc])

theorem scheme_chars_ne_colon {u : JSURL} (h : ':' ∉ u.scheme.data) :
    ∀ c ∈ u.scheme.data, (c ≠ ':' : Bool) := by
  intro c hc
  simp only [ne_eq, decide_eq_true_eq]
  exact fun hcol => h (hcol ▸ hc)

theorem href_data (u : JSURL) :
    u.href.data = u.scheme.data ++ ':' :: u.rest.data := by
  simp [JSURL.href, String.data_append]

theorem protocol_eq_iff (u : JSURL) (s : String) :
    u.protocol = s ++ ":" ↔ u.scheme = s := by
  constructor
  · intro h
    have hd : u.scheme.data ++ [':'] = s.data ++ [':'] := by
      have := congrArg String.data h
      simpa [JSURL.protocol, String.data_append] using this
    exact String.ext (List.append_cancel_right hd)
  · intro h
    simp [JSURL.protocol, h]

/-- Characterization of the OCI rewrite on any well-formed URL (non-empty
scheme without a colon): the result is always `ok` and its scheme is
always `oci`, whether the original scheme was special (forced through
`href`), non-special (plain setter), or already `oci` (no-op). -/
theorem replaceURLProtocol_oci (u : JSURL) (h1 : u.scheme ≠ "")
    (h2 : ':' ∉ u.scheme.data) :
    replaceURLProtocol u "oci:" = .ok { scheme := "oci", rest := u.rest } := by
  have hall := scheme_chars_ne_colon h2
  have hpre : u.href.data.takeWhile (· ≠ ':') = u.scheme.data := by
    rw [href_data, takeWhile_append_of_all _ _ _ hall]
    simp [List.takeWhile_cons]
  have hdrop : u.href.data.dropWhile (· ≠ ':') = ':' :: u.rest.data := by
    rw [href_data, dropWhile_append_of_all _ _ _ hall]
    simp [List.dropWhile_cons]
  have hlen : 0 < u.scheme.data.length := by
    cases hd : u.scheme.data with
    | nil => exact absurd (String.ext hd) h1
    | cons c l => simp
  obtain ⟨s, r⟩ := u
  by_cases heq : s = "oci"
  · subst heq
    simp only [replaceURLProtocol]
    rw [if_neg (by simp [JSURL.protocol])]
  · have hp : JSURL.protocol ⟨s, r⟩ ≠ "oci:" := by
      intro h
      exact heq ((protocol_eq_iff ⟨s, r⟩ "oci").mp (by simpa using h))
    have hns : schemeOfProtocolString "oci:" = "oci" := rfl
    simp only [replaceURLProtocol]
    rw [if_pos hp]
    by_cases hsp : isSpecialScheme s
    · -- special scheme: the protocol setter silently refuses, the href
      -- regex replacement forces the change
      have hcond : ¬(isSpecialScheme s = isSpecialScheme "oci") := by
        rw [hsp]; decide
      have hset : setProtocol ⟨s, r⟩ "oci:" = ⟨s, r⟩ := by
        simp only [setProtocol, hns]
        rw [if_neg (by decide)]
        rw [if_neg hcond]
      have hrepl : replaceProtocol (JSURL.href ⟨s, r⟩) "oci:" =
          ⟨['o','c','i',':'] ++ r.data⟩ := by
        simp only [replaceProtocol, hpre, hdrop]
        rw [if_pos ⟨hlen, by rw [href_data]; simp⟩]
        rfl
      have hfix : reparseHref (replaceProtocol (JSURL.href ⟨s, r⟩) "oci:") =
          { scheme := "oci", rest := r } := by
        rw [hrepl]
        have hsplit : (['o','c','i',':'] ++ r.data : List Char) =
            ['o','c','i'] ++ (':' :: r.data) := by simp
        simp only [reparseHref, hsplit]
        rw [takeWhile_append_of_all _ _ _ (by decide),
            dropWhile_append_of_all _ _ _ (by decide)]
        norm_num [List.takeWhile_cons, List.dropWhile_cons]
      rw [hset]
      simp only [fixReplaceURLProtocol, if_true, eq_self_iff_true]
      rw [hfix]
      rw [if_neg (fun h => hp (by simpa [JSURL.protocol] using h.symm))]
    · -- non-special scheme: the setter succeeds directly
      have hcond : isSpecialScheme s = isSpecialScheme "oci" := by
        rw [Bool.eq_false_iff.mpr hsp]; decide
      have hset : setProtocol ⟨s, r⟩ "oci:" = ⟨"oci", r⟩ := by
        simp only [setProtocol, hns]
        rw [if_neg (by decide)]
        rw [if_pos hcond]
      rw [hset]
      simp only [fixReplaceURLProtocol]
      rw [if_neg (fun h => hp (by simpa [JSURL.protocol] using h.symm))]

/-! ## Claim C6 — the OCI URL rewrite -/

/-- A URL whose scheme already is the OCI scheme. -/
def ociSchemedURL : JSURL := { scheme := "oci", rest := "//registry.example.com/charts" }

/-- **C6 counterexample.**  The claim says the rewritten URL's scheme "is
never equal to the original scheme" for an arbitrary original scheme; but
on a URL that already carries the OCI scheme `replaceURLProtocol` is a
no-op, so the rewritten scheme equals the original one. -/
theorem c6_counterexample :
    replaceURLProtocol ociSchemedURL "oci:" = Except.ok ociSchemedURL ∧
    ociSchemedURL.scheme = "oci" := by
  constructor
  · rfl
  · rfl

/-- **C6 (amended).**  For every well-formed URL (non-empty scheme not
containing a colon), the OCI rewrite used when `useOCI = true` succeeds
and yields a URL whose scheme is the OCI scheme; the resulting scheme
differs from the original scheme whenever the original scheme was not
already the OCI scheme. -/
theorem c6_oci_rewrite_scheme (u : JSURL) (h1 : u.scheme ≠ "")
    (h2 : ':' ∉ u.scheme.data) :
    ∃ u', replaceURLProtocol u "oci:" = Except.ok u' ∧ u'.scheme = "oci" ∧
      (u.scheme ≠ "oci" → u'.scheme ≠ u.scheme) :=
  ⟨{ scheme := "oci", rest := u.rest }, replaceURLProtocol_oci u h1 h2, rfl,
    fun hne => Ne.symm hne⟩

/-- Witness for C6 on the concrete special-scheme URL
`https://charts.example.com/repo`. -/
theorem c6_witness :
    ∃ u', replaceURLProtocol ⟨"https", "//charts.example.com/repo"⟩ "oci:" =
        Except.ok u' ∧ u'.scheme = "oci" ∧
      (JSURL.scheme ⟨"https", "//charts.example.com/repo"⟩ ≠ "oci" →
        u'.scheme ≠ JSURL.scheme ⟨"https", "//charts.example.com/repo"⟩) :=
  c6_oci_rewrite_scheme ⟨"https", "//charts.example.com/repo"⟩ (by decide) (by decide)

/-! ## Claim C8 — idempotence of the input normalizers -/

theorem jsonStringify_arr_ne_empty (xs : List JSVal) :
    jsonStringify (.arr xs) ≠ "" := by
  simp only [jsonStringify]
  intro h
  have hl := congrArg String.length h
  rw [String.length_append, String.length_append] at hl
  simp only [show ("[" : String).length = 1 from rfl,
    show ("]" : String).length = 1 from rfl,
    show ("" : String).length = 0 from rfl] at hl
  omega

theorem jsonStringify_obj_ne_empty (fields : List (String × JSVal)) :
    jsonStringify (.obj fields) ≠ "" := by
  simp only [jsonStringify]
  intro h
  have hl := congrArg String.length h
  rw [String.length_append, String.length_append] at hl
  simp only [show ("\x7b" : String).length = 1 from rfl,
    show ("\x7d" : String).length = 1 from rfl,
    show ("" : String).length = 0 from rfl] at hl
  omega

/-- Every element a `parseValueFiles` run keeps is truthy (the source's
`filter(f => !!f)`). -/
theorem parseValueFilesList_mem_truthy (fileList : JSVal) :
    ∀ a ∈ parseValueFilesList fileList, a.truthy = true := by
  intro a ha
  cases fileList with
  | arr xs => exact (List.mem_filter.mp ha).2
  | undef => simp [parseValueFilesList] at ha
  | null => simp [parseValueFilesList] at ha
  | bool b => simp [parseValueFilesList] at ha
  | num n => simp [parseValueFilesList] at ha
  | str s => simp [parseValueFilesList] at ha
  | obj fields => simp [parseValueFilesList] at ha

/-- **C8 (confirmed).**  Normalization of the loosely-typed inputs is
idempotent: re-applying `parseValues` to its own output, `parseValueFiles`
to its own (already filtered) output list, `parseDependencies` to its own
output array, and the repo-alias default to an already-defaulted alias all
return the input unchanged — defaults are applied once, not cumulatively. -/
theorem c8_normalization_idempotent (jsonParse : String → Option JSVal)
    (v₁ v₂ v₃ : JSVal) (out : List JSVal) (aliasName : String)
    (h : parseDependencies jsonParse v₃ = .ok out) :
    parseValues (parseValues v₁) = parseValues v₁ ∧
    parseValueFiles jsonParse (.arr (parseValueFiles jsonParse v₂)) =
      parseValueFiles jsonParse v₂ ∧
    parseDependencies jsonParse (.arr out) = .ok out ∧
    applyRepoAliasDefault (applyRepoAliasDefault aliasName) =
      applyRepoAliasDefault aliasName := by
  refine ⟨?_, ?_, ?_, ?_⟩
  · cases v₁ with
    | undef => rfl
    | null => rfl
    | bool b => cases b <;> rfl
    | num n =>
      by_cases hn : n = 0
      · subst hn; rfl
      · simp [parseValues, JSVal.truthy, JSVal.typeofObject, hn]
    | str s =>
      by_cases hs : s = ""
      · subst hs; rfl
      · simp [parseValues, JSVal.truthy, JSVal.typeofObject, hs]
    | arr xs =>
      simp [parseValues, JSVal.truthy, JSVal.typeofObject,
        jsonStringify_arr_ne_empty xs]
    | obj fields =>
      simp [parseValues, JSVal.truthy, JSVal.typeofObject,
        jsonStringify_obj_ne_empty fields]
  · exact List.filter_eq_self.mpr (parseValueFilesList_mem_truthy _)
  · rfl
  · by_cases ha : aliasName = ""
    · subst ha; rfl
    · simp [applyRepoAliasDefault, ha]

/-- Witness for C8 at concrete inputs (structured values, a list with a
falsy entry, an empty dependencies payload, an unset alias). -/
theorem c8_witness :
    parseValues (parseValues (.obj [("foo", .str "bar")])) =
      parseValues (.obj [("foo", .str "bar")]) ∧
    parseValueFiles (fun _ => none) (.arr (parseValueFiles (fun _ => none)
      (.arr [.str "a.yml", .str "", .str "b.yml"]))) =
      parseValueFiles (fun _ => none) (.arr [.str "a.yml", .str "", .str "b.yml"]) ∧
    parseDependencies (fun _ => none) (.arr []) = .ok [] ∧
    applyRepoAliasDefault (applyRepoAliasDefault "") = applyRepoAliasDefault "" :=
  c8_normalization_idempotent (fun _ => none) (.obj [("foo", .str "bar")])
    (.arr [.str "a.yml", .str "", .str "b.yml"]) (.str "") [] "" rfl

/-! ## Claim C9 — the value-file renderer drops its aggregate promise -/

/-- The aggregate promise over the per-file renders fails whenever any
file's render fails. -/
theorem promiseAll_ne_ok_of_mem_error
    (renderOne : String → Except String Unit) (files : List String)
    (f : String) (e : String) (hf : f ∈ files) (he : renderOne f = .error e) :
    promiseAll (files.map renderOne) ≠ .ok () := by
  induction files with
  | nil => cases hf
  | cons hd tl ih =>
    rcases List.mem_cons.mp hf with hhd | htl
    · subst hhd
      simp only [List.map_cons, he, promiseAll]
      intro hcontra
      cases hcontra
    · cases hr : renderOne hd with
      | ok u =>
        cases u
        simpa [List.map_cons, hr, promiseAll] using ih htl
      | error e' =>
        simp only [List.map_cons, hr, promiseAll]
        intro hcontra
        cases hcontra

/-- **C9 (confirmed).**  `renderFiles` builds the aggregate promise over
its per-file render operations but never awaits it, so its own promise
resolves successfully even when some file's read or rewrite fails: a
failing value-file render never propagates as a run failure. -/
theorem c9_renderFiles_resolves_despite_failure
    (renderOne : String → Except String Unit) (files : List String)
    (f : String) (e : String) (hf : f ∈ files) (he : renderOne f = .error e) :
    renderFiles renderOne files = .ok () ∧
    promiseAll (files.map renderOne) ≠ .ok () :=
  ⟨rfl, promiseAll_ne_ok_of_mem_error renderOne files f e hf he⟩

/-- Witness for C9: one of two files fails to render, yet `renderFiles`
resolves successfully. -/
theorem c9_witness :
    renderFiles (fun f => if f = "bad.yml" then .error "ENOENT" else .ok ())
      ["ok.yml", "bad.yml"] = .ok () ∧
    promiseAll (["ok.yml", "bad.yml"].map
      (fun f => if f = "bad.yml" then .error "ENOENT" else .ok ())) ≠ .ok () :=
  c9_renderFiles_resolves_despite_failure
    (fun f => if f = "bad.yml" then .error "ENOENT" else .ok ())
    ["ok.yml", "bad.yml"] "bad.yml" "ENOENT" (by simp) (by simp)

/-! ## Claim C4 — ordering of the `--values` flags -/

/-- The flags `helmUpgrade` accumulates before any `--values` flag
(namespace, kubeconfig, `--dry-run`, `--version`, `--timeout`,
`--atomic`). -/
def helmUpgradeBaseArgs (conf : HelmDeployConfig) : List String :=
  let args : List String := []
  let args := if conf.«namespace» ≠ "" then args ++ ["-n", conf.«namespace»] else args
  let args := if conf.kubeconfigPath ≠ "" then args ++ ["--kubeconfig", conf.kubeconfigPath] else args
  let args := if conf.dry then args ++ ["--dry-run"] else args
  let args := if conf.chartVersion ≠ "" then args ++ ["--version", conf.chartVersion] else args
  let args := if conf.timeout ≠ "" then args ++ ["--timeout", conf.timeout] else args
  let args := if conf.atomic then args ++ ["--atomic"] else args
  args

/-- The source's `for (const f of conf.valueFiles) args = [...args,
'--values', f]` loop appends one flag pair per entry, in order. -/
theorem foldl_values_flags (l : List String) (init : List String) :
    l.foldl (fun a f => a ++ ["--values", f]) init =
      init ++ l.flatMap (fun f => ["--values", f]) := by
  induction l generalizing init with
  | nil => simp
  | cons hd tl ih => simp [List.foldl_cons, ih]

/-- **C4 (confirmed).**  Whenever the inline values document is non-empty,
the argument list built by `helmUpgrade` consists of the base flags
followed by exactly one `--values <f>` pair per `valueFiles` entry in
listed order, followed by one final `--values <valuesFile>` pair for the
inline values file. -/
theorem c4_values_flag_order (conf : HelmDeployConfig) (valuesFile : String)
    (hv : conf.values ≠ "") :
    helmUpgradeArgs conf valuesFile =
      helmUpgradeBaseArgs conf ++
      (conf.valueFiles.flatMap fun f => ["--values", f]) ++
      ["--values", valuesFile] := by
  simp [helmUpgradeArgs, helmUpgradeBaseArgs, foldl_values_flags, hv,
    List.append_assoc]

/-- Witness for C4: two value files plus a non-empty inline document. -/
theorem c4_witness :
    helmUpgradeArgs
      { command := "upgrade", release := "r", chart := "c",
        «namespace» := "default", atomic := true, values := "x: 1",
        valueFiles := ["f1.yml", "f2.yml"] } "values.yml" =
      helmUpgradeBaseArgs
        { command := "upgrade", release := "r", chart := "c",
          «namespace» := "default", atomic := true, values := "x: 1",
          valueFiles := ["f1.yml", "f2.yml"] } ++
      (["f1.yml", "f2.yml"].flatMap fun f => ["--values", f]) ++
      ["--values", "values.yml"] :=
  c4_values_flag_order _ "values.yml" (by decide)

/-! ## Trace bookkeeping lemmas -/

@[simp] theorem execsIn_nil : execsIn [] = [] := rfl

@[simp] theorem execsIn_append (a b : List Event) :
    execsIn (a ++ b) = execsIn a ++ execsIn b := List.filterMap_append a b _

@[simp] theorem execsIn_cons_exec (args : List String) (es : List Event) :
    execsIn (Event.exec args :: es) = args :: execsIn es := rfl

@[simp] theorem execsIn_cons_createTmpFile (p : String) (es : List Event) :
    execsIn (Event.createTmpFile p :: es) = execsIn es := rfl

@[simp] theorem execsIn_cons_writeFile (p c : String) (es : List Event) :
    execsIn (Event.writeFile p c :: es) = execsIn es := rfl

@[simp] theorem execsIn_cons_removeFile (p : String) (es : List Event) :
    execsIn (Event.removeFile p :: es) = execsIn es := rfl

@[simp] theorem execsIn_cons_statusEvent (s : String) (es : List Event) :
    execsIn (Event.statusEvent s :: es) = execsIn es := rfl

@[simp] theorem execsIn_ite (c : Prop) [Decidable c] (a b : List Event) :
    execsIn (if c then a else b) = if c then execsIn a else execsIn b := by
  split <;> rfl

@[simp] theorem removalsIn_nil : removalsIn [] = [] := rfl

@[simp] theorem removalsIn_ite (c : Prop) [Decidable c] (a b : List Event) :
    removalsIn (if c then a else b) = if c then removalsIn a else removalsIn b := by
  split <;> rfl

@[simp] theorem removalsIn_append (a b : List Event) :
    removalsIn (a ++ b) = removalsIn a ++ removalsIn b := List.filterMap_append a b _

@[simp] theorem removalsIn_cons_exec (args : List String) (es : List Event) :
    removalsIn (Event.exec args :: es) = removalsIn es := rfl

@[simp] theorem removalsIn_cons_createTmpFile (p : String) (es : List Event) :
    removalsIn (Event.createTmpFile p :: es) = removalsIn es := rfl

@[simp] theorem removalsIn_cons_writeFile (p c : String) (es : List Event) :
    removalsIn (Event.writeFile p c :: es) = removalsIn es := rfl

@[simp] theorem removalsIn_cons_removeFile (p : String) (es : List Event) :
    removalsIn (Event.removeFile p :: es) = p :: removalsIn es := rfl

@[simp] theorem removalsIn_cons_statusEvent (s : String) (es : List Event) :
    removalsIn (Event.statusEvent s :: es) = removalsIn es := rfl

/-- `buildHelmConfigFiles` only creates and writes files: it spawns
nothing. -/
theorem buildHelmConfigFiles_no_exec (nm : TmpNames) (conf : HelmDeployConfig) :
    execsIn (buildHelmConfigFiles nm conf).1 = [] := by
  unfold buildHelmConfigFiles
  split
  · rfl
  · split
    · rfl
    · split <;> simp

/-- `buildHelmConfigFiles` removes nothing. -/
theorem buildHelmConfigFiles_no_removal (nm : TmpNames) (conf : HelmDeployConfig) :
    removalsIn (buildHelmConfigFiles nm conf).1 = [] := by
  unfold buildHelmConfigFiles
  split
  · rfl
  · split
    · rfl
    · split <;> simp

/-- `helmDelete` removes nothing. -/
theorem helmDelete_no_removal (conf : HelmDeployConfig) :
    removalsIn (helmDelete conf).1 = [] := by
  unfold helmDelete
  split <;> simp

/-- `helmPush` removes nothing. -/
theorem helmPush_no_removal (nm : TmpNames) (fs : List String)
    (conf : HelmDeployConfig) : removalsIn (helmPush nm fs conf).1 = [] := by
  unfold helmPush
  repeat' split
  all_goals try simp
  all_goals (split <;> simp)

/-- `helmUpgrade` removes nothing. -/
theorem helmUpgrade_no_removal (nm : TmpNames) (conf : HelmDeployConfig)
    (valuesFile : String) : removalsIn (helmUpgrade nm conf valuesFile).1 = [] := by
  unfold helmUpgrade
  split
  · rfl
  · split <;> simp

/-- Nothing in the `try` body removes a file: removals happen only in the
`catch` block. -/
theorem deployTryBody_no_removal (nm : TmpNames) (fs : List String)
    (renderOne : String → Except String Unit) (conf : HelmDeployConfig) :
    removalsIn (deployTryBody nm fs renderOne conf).1 = [] := by
  unfold deployTryBody
  simp only [renderFiles]
  simp only [removalsIn_append]
  have h1 := helmDelete_no_removal (kubeResolvedConfig nm conf)
  have h2 := helmPush_no_removal nm fs (kubeResolvedConfig nm conf)
  have h3 := helmUpgrade_no_removal nm (kubeResolvedConfig nm conf)
    (pathJoin nm.dataHome "values.yml")
  repeat' split
  all_goals simp [h1, h2, h3]

/-- The kubeconfig-path injection changes no other field. -/
theorem kubeResolvedConfig_fields (nm : TmpNames) (conf : HelmDeployConfig) :
    (kubeResolvedConfig nm conf).command = conf.command ∧
    (kubeResolvedConfig nm conf).release = conf.release ∧
    (kubeResolvedConfig nm conf).chart = conf.chart ∧
    (kubeResolvedConfig nm conf).«namespace» = conf.«namespace» ∧
    (kubeResolvedConfig nm conf).values = conf.values ∧
    (kubeResolvedConfig nm conf).valueFiles = conf.valueFiles ∧
    (kubeResolvedConfig nm conf).chartMetadata = conf.chartMetadata ∧
    (kubeResolvedConfig nm conf).chartVersion = conf.chartVersion ∧
    (kubeResolvedConfig nm conf).repo = conf.repo ∧
    (kubeResolvedConfig nm conf).appVersion = conf.appVersion ∧
    (kubeResolvedConfig nm conf).useOCI = conf.useOCI ∧
    (kubeResolvedConfig nm conf).dependencies = conf.dependencies := by
  unfold kubeResolvedConfig
  split <;> simp

@[simp] theorem kubeResolvedConfig_command (nm : TmpNames) (conf : HelmDeployConfig) :
    (kubeResolvedConfig nm conf).command = conf.command :=
  (kubeResolvedConfig_fields nm conf).1

@[simp] theorem kubeResolvedConfig_release (nm : TmpNames) (conf : HelmDeployConfig) :
    (kubeResolvedConfig nm conf).release = conf.release :=
  (kubeResolvedConfig_fields nm conf).2.1

@[simp] theorem kubeResolvedConfig_chart (nm : TmpNames) (conf : HelmDeployConfig) :
    (kubeResolvedConfig nm conf).chart = conf.chart :=
  (kubeResolvedConfig_fields nm conf).2.2.1

@[simp] theorem kubeResolvedConfig_namespace (nm : TmpNames) (conf : HelmDeployConfig) :
    (kubeResolvedConfig nm conf).«namespace» = conf.«namespace» :=
  (kubeResolvedConfig_fields nm conf).2.2.2.1

@[simp] theorem kubeResolvedConfig_chartMetadata (nm : TmpNames) (conf : HelmDeployConfig) :
    (kubeResolvedConfig nm conf).chartMetadata = conf.chartMetadata :=
  (kubeResolvedConfig_fields nm conf).2.2.2.2.2.2.1

/-- When an inline kubeconfig is supplied, the path handed to the
operation-specific branch is the temporary kubeconfig file's path, no
matter what the user supplied. -/
theorem kubeResolvedConfig_kubeconfigPath (nm : TmpNames) (conf : HelmDeployConfig)
    (hin : conf.kubeconfigInline ≠ "") :
    (kubeResolvedConfig nm conf).kubeconfigPath = nm.kubeconfig := by
  unfold kubeResolvedConfig
  rw [if_pos hin]

/-! ## Claim C1 — delete without a release -/

/-- Concrete tmp-file names for the counterexample and witness runs. -/
def tmpNamesW : TmpNames :=
  { registry := "/tmp/registries.json", repository := "/tmp/repositories.yaml",
    kubeconfig := "/tmp/kubeconfig.yml", dataHome := "." }

/-- A per-file render that always succeeds. -/
def renderOkW : String → Except String Unit := fun _ => .ok ()

/-- A `delete` intent with no release, as `parseConfig` produces it from
the defaulted inputs (`parseConfig` does **not** mark `release` required
for `delete`: only for `remove` and `upgrade`). -/
def c1Conf : HelmDeployConfig :=
  { command := "delete", «namespace» := "default", useOCI := true, atomic := true }

/-- **C1 counterexample.**  The run does fail with the missing-field error
naming `release`, but an external-tool invocation (`helm version`) has
already occurred by then, contradicting "no external-tool (helm)
invocation occurs before that failure". -/
theorem c1_counterexample :
    (deployHelmChart tmpNamesW [] renderOkW c1Conf).error =
      some (missingMsg "release") ∧
    Event.exec ["version"] ∈ (deployHelmChart tmpNamesW [] renderOkW c1Conf).events := by
  decide

/-- **C1 (amended).**  For every configuration with `command = delete` and
no release (and credential artifacts that build), the run fails with the
missing-field error naming `release`; the only external-tool invocations
before that failure are the version print and, when a primary repo URL or
a dependency is configured, the repository-index refresh — in particular
no `delete` invocation ever occurs. -/
theorem c1_delete_missing_release (nm : TmpNames) (fs : List String)
    (renderOne : String → Except String Unit) (conf : HelmDeployConfig)
    (hcmd : conf.command = "delete") (hrel : conf.release = "")
    (hb : (buildHelmConfigFiles nm conf).2 = none) :
    (deployHelmChart nm fs renderOne conf).error = some (missingMsg "release") ∧
    execsIn (deployHelmChart nm fs renderOne conf).events =
      [["version"]] ++
        (if is_defined conf.repo || !conf.dependencies.isEmpty then
          [repoUpdateArgs nm] else []) ∧
    ∀ args ∈ execsIn (deployHelmChart nm fs renderOne conf).events,
      args.head? ≠ some "delete" := by
  have hcmd' : ¬conf.command = "" := by rw [hcmd]; decide
  have hdel : helmDelete (kubeResolvedConfig nm conf) =
      ([], some (missingMsg "release")) := by
    unfold helmDelete
    rw [if_pos (by rw [kubeResolvedConfig_release, hrel])]
  have htry : deployTryBody nm fs renderOne conf =
      ([Event.exec ["version"]] ++
        (if is_defined conf.repo || !conf.dependencies.isEmpty then
          [Event.exec (repoUpdateArgs nm)] else []) ++
        (if conf.values ≠ "" then
          [Event.writeFile (pathJoin nm.dataHome "values.yml") conf.values] else []) ++
        (if conf.kubeconfigInline ≠ "" then
          [Event.writeFile nm.kubeconfig conf.kubeconfigInline] else []),
       some (missingMsg "release")) := by
    unfold deployTryBody
    simp only [renderFiles, kubeResolvedConfig_command, hcmd, hdel]
    simp
  have hrun : deployHelmChart nm fs renderOne conf =
      { events := [Event.statusEvent "pending"] ++ (buildHelmConfigFiles nm conf).1 ++
          [Event.createTmpFile nm.kubeconfig] ++ (deployTryBody nm fs renderOne conf).1 ++
          [Event.removeFile nm.repository, Event.removeFile nm.registry,
           Event.removeFile nm.kubeconfig]
        error := some (missingMsg "release") } := by
    unfold deployHelmChart
    rw [if_neg hcmd', hb, htry]
  have hex : execsIn (deployHelmChart nm fs renderOne conf).events =
      [["version"]] ++
        (if is_defined conf.repo || !conf.dependencies.isEmpty then
          [repoUpdateArgs nm] else []) := by
    rw [hrun, htry]
    simp [buildHelmConfigFiles_no_exec]
  refine ⟨by rw [hrun], hex, ?_⟩
  intro args hargs
  rw [hex] at hargs
  rcases List.mem_append.mp hargs with h | h
  · simp only [List.mem_singleton] at h
    rw [h]; decide
  · revert h
    split
    · intro h
      simp only [List.mem_singleton] at h
      rw [h]; simp [repoUpdateArgs]
    · intro h
      simp at h

/-- Witness for C1 at the concrete delete-without-release configuration. -/
theorem c1_witness :
    (deployHelmChart tmpNamesW ["/x"] renderOkW
      { command := "delete", «namespace» := "default", atomic := true }).error =
      some (missingMsg "release") ∧
    execsIn (deployHelmChart tmpNamesW ["/x"] renderOkW
      { command := "delete", «namespace» := "default", atomic := true }).events =
      [["version"]] ++
        (if is_defined (HelmDeployConfig.repo
            { command := "delete", «namespace» := "default", atomic := true }) ||
          !(HelmDeployConfig.dependencies
            { command := "delete", «namespace» := "default", atomic := true }).isEmpty then
          [repoUpdateArgs tmpNamesW] else []) ∧
    ∀ args ∈ execsIn (deployHelmChart tmpNamesW ["/x"] renderOkW
        { command := "delete", «namespace» := "default", atomic := true }).events,
      args.head? ≠ some "delete" :=
  c1_delete_missing_release tmpNamesW ["/x"] renderOkW
    { command := "delete", «namespace» := "default", atomic := true }
    rfl rfl (by decide)

/-! ## Claim C2 — credential pair validation -/

/-- A `delete` intent whose dependency entry supplies a username but no
password. -/
def c2Conf : HelmDeployConfig :=
  { command := "delete", release := "test", «namespace» := "default",
    useOCI := true, atomic := true,
    dependencies := [{ url := "https://charts.example.com/deps",
                       aliasName := "deps", username := "admin" }] }

/-- **C2 counterexample.**  A dependency credential pair with exactly one
of username/password supplied does **not** make the run fail: the run
completes successfully, credential-artifact files are written and
subprocesses are spawned.  Only the primary pair is checked. -/
theorem c2_counterexample :
    (deployHelmChart tmpNamesW [] renderOkW c2Conf).error = none ∧
    fileWritesIn (deployHelmChart tmpNamesW [] renderOkW c2Conf).events ≠ [] ∧
    execsIn (deployHelmChart tmpNamesW [] renderOkW c2Conf).events ≠ [] := by
  decide

/-- **C2 (amended).**  For the **primary** repository credential pair,
supplying exactly one of username/password makes the run fail with the
paired-field error before any file is created or written and before any
subprocess is spawned (the only event is the `pending` status
notification); supplying both or neither passes that check, and the
credential-artifact files are then created (the first artifact event is
the registry file's creation).  Dependency pairs are not validated. -/
theorem c2_primary_pair_check (nm : TmpNames) (fs : List String)
    (renderOne : String → Except String Unit) (conf : HelmDeployConfig)
    (hcmd : conf.command ≠ "") :
    ((is_defined conf.repoUsername = true ∧ is_defined conf.repoPassword = false) →
      (deployHelmChart nm fs renderOne conf).error =
        some "supplied repo-username but missing repo-password" ∧
      (deployHelmChart nm fs renderOne conf).events = [Event.statusEvent "pending"]) ∧
    ((is_defined conf.repoPassword = true ∧ is_defined conf.repoUsername = false) →
      (deployHelmChart nm fs renderOne conf).error =
        some "supplied repo-password but missing repo-username" ∧
      (deployHelmChart nm fs renderOne conf).events = [Event.statusEvent "pending"]) ∧
    ((is_defined conf.repoUsername = is_defined conf.repoPassword) →
      (buildHelmConfigFiles nm conf).1.head? =
        some (Event.createTmpFile nm.registry)) := by
  refine ⟨?_, ?_, ?_⟩
  · rintro ⟨hu, hp⟩
    have hbuild : buildHelmConfigFiles nm conf =
        ([], some "supplied repo-username but missing repo-password") := by
      unfold buildHelmConfigFiles
      rw [if_pos (by simp [hu, hp])]
    unfold deployHelmChart
    rw [if_neg hcmd, hbuild]
    exact ⟨rfl, rfl⟩
  · rintro ⟨hp, hu⟩
    have hbuild : buildHelmConfigFiles nm conf =
        ([], some "supplied repo-password but missing repo-username") := by
      unfold buildHelmConfigFiles
      rw [if_neg (by simp [hu]), if_pos (by simp [hu, hp])]
    unfold deployHelmChart
    rw [if_neg hcmd, hbuild]
    exact ⟨rfl, rfl⟩
  · intro hup
    unfold buildHelmConfigFiles
    rw [if_neg (by cases h : is_defined conf.repoPassword <;> simp [hup, h]),
        if_neg (by cases h : is_defined conf.repoPassword <;> simp [hup, h])]
    split <;> rfl

/-- Witness for C2 at a configuration that supplies both halves of the
primary pair. -/
theorem c2_witness :
    ((is_defined (HelmDeployConfig.repoUsername
        { command := "upgrade", repoUsername := "admin", repoPassword := "pw" }) = true ∧
      is_defined (HelmDeployConfig.repoPassword
        { command := "upgrade", repoUsername := "admin", repoPassword := "pw" }) = false) →
      (deployHelmChart tmpNamesW [] renderOkW
        { command := "upgrade", repoUsername := "admin", repoPassword := "pw" }).error =
        some "supplied repo-username but missing repo-password" ∧
      (deployHelmChart tmpNamesW [] renderOkW
        { command := "upgrade", repoUsername := "admin", repoPassword := "pw" }).events =
        [Event.statusEvent "pending"]) ∧
    ((is_defined (HelmDeployConfig.repoPassword
        { command := "upgrade", repoUsername := "admin", repoPassword := "pw" }) = true ∧
      is_defined (HelmDeployConfig.repoUsername
        { command := "upgrade", repoUsername := "admin", repoPassword := "pw" }) = false) →
      (deployHelmChart tmpNamesW [] renderOkW
        { command := "upgrade", repoUsername := "admin", repoPassword := "pw" }).error =
        some "supplied repo-password but missing repo-username" ∧
      (deployHelmChart tmpNamesW [] renderOkW
        { command := "upgrade", repoUsername := "admin", repoPassword := "pw" }).events =
        [Event.statusEvent "pending"]) ∧
    ((is_defined (HelmDeployConfig.repoUsername
        { command := "upgrade", repoUsername := "admin", repoPassword := "pw" }) =
      is_defined (HelmDeployConfig.repoPassword
        { command := "upgrade", repoUsername := "admin", repoPassword := "pw" })) →
      (buildHelmConfigFiles tmpNamesW
        { command := "upgrade", repoUsername := "admin", repoPassword := "pw" }).1.head? =
        some (Event.createTmpFile tmpNamesW.registry)) :=
  c2_primary_pair_check tmpNamesW [] renderOkW
    { command := "upgrade", repoUsername := "admin", repoPassword := "pw" }
    (by decide)

/-! ## Claim C3 — upgrade invocation sequence -/

/-- An upgrade intent with a configured primary repo URL. -/
def c3Conf : HelmDeployConfig :=
  { command := "upgrade", release := "my-mongodb", chart := "bitnami/mongodb",
    «namespace» := "default", atomic := true, useOCI := true,
    repo := "https://charts.bitnami.com/bitnami", repoAlias := "bitnami" }

/-- **C3 counterexample.**  Even with a primary repo URL configured, the
sequence of external-tool invocations does not begin with the
repository-index refresh: the first invocation is the `version` print. -/
theorem c3_counterexample :
    (execsIn (deployHelmChart tmpNamesW [] renderOkW c3Conf).events).head? =
      some ["version"] ∧
    ["version"] ≠ repoUpdateArgs tmpNamesW := by
  decide

/-- **C3 (amended).**  For every upgrade with a primary repo URL or at
least one dependency configured (and passing validation), the invocation
sequence is exactly `version`, then the repository-index refresh, then the
upgrade; the refresh is the first repo-touching invocation, and both it
and the upgrade carry the two credential-artifact paths as explicit
`--registry-config`/`--repository-config` flags. -/
theorem c3_upgrade_sequence (nm : TmpNames) (fs : List String)
    (renderOne : String → Except String Unit) (conf : HelmDeployConfig)
    (hcmd : conf.command = "upgrade") (hrel : conf.release ≠ "")
    (hch : conf.chart ≠ "")
    (hb : (buildHelmConfigFiles nm conf).2 = none)
    (hrepo : (is_defined conf.repo || !conf.dependencies.isEmpty) = true) :
    (deployHelmChart nm fs renderOne conf).error = none ∧
    execsIn (deployHelmChart nm fs renderOne conf).events =
      [["version"], repoUpdateArgs nm,
       helmUpgradeExecArgs nm (kubeResolvedConfig nm conf)
         (pathJoin nm.dataHome "values.yml")] ∧
    repoUpdateArgs nm = ["repo", "update"] ++
      ["--registry-config", nm.registry, "--repository-config", nm.repository] ∧
    ∃ pre post,
      helmUpgradeExecArgs nm (kubeResolvedConfig nm conf)
        (pathJoin nm.dataHome "values.yml") =
      pre ++ ["--registry-config", nm.registry, "--repository-config", nm.repository]
        ++ post := by
  have hcmd' : ¬conf.command = "" := by rw [hcmd]; decide
  have hrel' : ¬(kubeResolvedConfig nm conf).release = "" := by
    rw [kubeResolvedConfig_release]; exact hrel
  have hch' : ¬(kubeResolvedConfig nm conf).chart = "" := by
    rw [kubeResolvedConfig_chart]; exact hch
  have hup : helmUpgrade nm (kubeResolvedConfig nm conf)
      (pathJoin nm.dataHome "values.yml") =
      ([Event.exec (helmUpgradeExecArgs nm (kubeResolvedConfig nm conf)
          (pathJoin nm.dataHome "values.yml")),
        Event.statusEvent "success"], none) := by
    unfold helmUpgrade
    rw [if_neg hrel', if_neg hch']
  have htry : deployTryBody nm fs renderOne conf =
      ([Event.exec ["version"], Event.exec (repoUpdateArgs nm)] ++
        (if conf.values ≠ "" then
          [Event.writeFile (pathJoin nm.dataHome "values.yml") conf.values] else []) ++
        (if conf.kubeconfigInline ≠ "" then
          [Event.writeFile nm.kubeconfig conf.kubeconfigInline] else []) ++
        [Event.exec (helmUpgradeExecArgs nm (kubeResolvedConfig nm conf)
          (pathJoin nm.dataHome "values.yml")),
         Event.statusEvent "success"],
       none) := by
    unfold deployTryBody
    simp only [renderFiles, kubeResolvedConfig_command, hcmd, hup, hrepo]
    simp
  have hrun : deployHelmChart nm fs renderOne conf =
      { events := [Event.statusEvent "pending"] ++ (buildHelmConfigFiles nm conf).1 ++
          [Event.createTmpFile nm.kubeconfig] ++ (deployTryBody nm fs renderOne conf).1
        error := none } := by
    unfold deployHelmChart
    rw [if_neg hcmd', hb, htry]
  refine ⟨by rw [hrun], ?_, rfl, ?_⟩
  · rw [hrun, htry]
    simp [buildHelmConfigFiles_no_exec]
  · exact ⟨["upgrade", (kubeResolvedConfig nm conf).release,
      (kubeResolvedConfig nm conf).chart, "--install", "--wait"],
      helmUpgradeArgs (kubeResolvedConfig nm conf) (pathJoin nm.dataHome "values.yml"),
      by simp [helmUpgradeExecArgs]⟩

/-- Witness for C3 at the concrete upgrade configuration with a primary
repo URL. -/
theorem c3_witness :
    (deployHelmChart tmpNamesW [] renderOkW c3Conf).error = none ∧
    execsIn (deployHelmChart tmpNamesW [] renderOkW c3Conf).events =
      [["version"], repoUpdateArgs tmpNamesW,
       helmUpgradeExecArgs tmpNamesW (kubeResolvedConfig tmpNamesW c3Conf)
         (pathJoin tmpNamesW.dataHome "values.yml")] ∧
    repoUpdateArgs tmpNamesW = ["repo", "update"] ++
      ["--registry-config", tmpNamesW.registry,
       "--repository-config", tmpNamesW.repository] ∧
    ∃ pre post,
      helmUpgradeExecArgs tmpNamesW (kubeResolvedConfig tmpNamesW c3Conf)
        (pathJoin tmpNamesW.dataHome "values.yml") =
      pre ++ ["--registry-config", tmpNamesW.registry,
              "--repository-config", tmpNamesW.repository] ++ post :=
  c3_upgrade_sequence tmpNamesW [] renderOkW c3Conf rfl (by decide) (by decide)
    (by decide) (by decide)

/-! ## Claim C5 — the push package path -/

/-- **C5 (confirmed).**  For a push whose resolved metadata is name
`mychart`, version `3.1.1`, with no chart-version override: the branch
asserts the existence of exactly `<chart-path>/mychart-3.1.1.tgz` — if
that path does not exist it raises the hard error and no publish
invocation occurs (no retry) — and otherwise publishes exactly that path
to the (possibly OCI-rewritten) repo URL. -/
theorem c5_push_package_path (nm : TmpNames) (fs : List String)
    (conf : HelmDeployConfig)
    (hmeta : conf.chartMetadata = some { name := "mychart", version := "3.1.1" })
    (hv : conf.chartVersion = "") (hch : conf.chart ≠ "")
    (hex : pathExists fs conf.chart = true) (hrepo : conf.repo ≠ "") :
    (pathExists fs (conf.chart ++ "/mychart-3.1.1.tgz") = false →
      (helmPush nm fs conf).2 = some ("Could not find packaged chart.Expected " ++
        (conf.chart ++ "/mychart-3.1.1.tgz")) ∧
      ∀ args ∈ execsIn (helmPush nm fs conf).1, args.head? ≠ some "push") ∧
    (pathExists fs (conf.chart ++ "/mychart-3.1.1.tgz") = true →
      ∀ u, pushRepoURL conf = .ok u →
        helmPush nm fs conf =
          ([Event.exec ["inspect", "chart", conf.chart],
            Event.exec ["dependency", "update", conf.chart,
              "--registry-config", nm.registry,
              "--repository-config", nm.repository],
            Event.exec (["package"] ++
              (if conf.appVersion ≠ "" then ["--app-version", conf.appVersion] else [])
              ++ [conf.chart]),
            Event.exec (["push", conf.chart ++ "/mychart-3.1.1.tgz", urlToString u,
              "--registry-config", nm.registry,
              "--repository-config", nm.repository])], none)) := by
  have hpack : expectedPackagePath conf { name := "mychart", version := "3.1.1" } =
      conf.chart ++ "/mychart-3.1.1.tgz" := by
    unfold expectedPackagePath
    rw [if_neg (by simp [hv])]
    rw [String.append_assoc, String.append_assoc, String.append_assoc,
      String.append_assoc]
    rfl
  have hpush : helmPush nm fs conf =
      (if pathExists fs (conf.chart ++ "/mychart-3.1.1.tgz") = false then
        ([Event.exec ["inspect", "chart", conf.chart],
          Event.exec ["dependency", "update", conf.chart,
            "--registry-config", nm.registry,
            "--repository-config", nm.repository],
          Event.exec (["package"] ++
            (if conf.appVersion ≠ "" then ["--app-version", conf.appVersion] else [])
            ++ [conf.chart])],
         some ("Could not find packaged chart.Expected " ++
           (conf.chart ++ "/mychart-3.1.1.tgz")))
      else
        match pushRepoURL conf with
        | .error e =>
          ([Event.exec ["inspect", "chart", conf.chart],
            Event.exec ["dependency", "update", conf.chart,
              "--registry-config", nm.registry,
              "--repository-config", nm.repository],
            Event.exec (["package"] ++
              (if conf.appVersion ≠ "" then ["--app-version", conf.appVersion] else [])
              ++ [conf.chart])],
           some e)
        | .ok repoURL =>
          ([Event.exec ["inspect", "chart", conf.chart],
            Event.exec ["dependency", "update", conf.chart,
              "--registry-config", nm.registry,
              "--repository-config", nm.repository],
            Event.exec (["package"] ++
              (if conf.appVersion ≠ "" then ["--app-version", conf.appVersion] else [])
              ++ [conf.chart]),
            Event.exec (["push", conf.chart ++ "/mychart-3.1.1.tgz",
              urlToString repoURL,
              "--registry-config", nm.registry,
              "--repository-config", nm.repository])], none)) := by
    unfold helmPush
    rw [if_neg hch]
    rw [if_neg (show ¬((!pathExists fs conf.chart) = true) by simp [hex])]
    simp only [hmeta, hpack, hv]
    simp [hrepo]
  constructor
  · intro hmiss
    rw [hpush, if_pos hmiss]
    refine ⟨rfl, ?_⟩
    intro args hargs
    simp only [execsIn_cons_exec, execsIn_nil] at hargs
    rcases List.mem_cons.mp hargs with h | hargs
    · rw [h]; simp
    rcases List.mem_cons.mp hargs with h | hargs
    · rw [h]; simp
    rcases List.mem_cons.mp hargs with h | hargs
    · rw [h]; simp
    cases hargs
  · intro hfound u hu
    rw [hpush, if_neg (by simp [hfound]), hu]

/-- Witness for C5: one concrete run where the package exists (publishing
exactly the expected path) — obtained by applying the C5 theorem. -/
theorem c5_witness :
    helmPush tmpNamesW
      ["/charts/mychart", "/charts/mychart/mychart-3.1.1.tgz"]
      { command := "push", chart := "/charts/mychart",
        chartMetadata := some { name := "mychart", version := "3.1.1" },
        repo := "https://charts.example.com/main", useOCI := true } =
      ([Event.exec ["inspect", "chart", "/charts/mychart"],
        Event.exec ["dependency", "update", "/charts/mychart",
          "--registry-config", tmpNamesW.registry,
          "--repository-config", tmpNamesW.repository],
        Event.exec ["package", "/charts/mychart"],
        Event.exec ["push", "/charts/mychart/mychart-3.1.1.tgz",
          "oci://charts.example.com/main",
          "--registry-config", tmpNamesW.registry,
          "--repository-config", tmpNamesW.repository]], none) := by
  have h := (c5_push_package_path tmpNamesW
    ["/charts/mychart", "/charts/mychart/mychart-3.1.1.tgz"]
    { command := "push", chart := "/charts/mychart",
      chartMetadata := some { name := "mychart", version := "3.1.1" },
      repo := "https://charts.example.com/main", useOCI := true }
    rfl rfl (by decide) (by decide) (by decide)).2 (by decide)
    { scheme := "oci", rest := "//charts.example.com/main" } rfl
  rw [h]
  decide

/-! ## Claim C7 — removal of the transient files -/

/-- A delete intent that completes successfully (for the C7
counterexample). -/
def c7Conf : HelmDeployConfig :=
  { command := "delete", release := "test", «namespace» := "default",
    useOCI := true, atomic := true }

/-- **C7 counterexample.**  On a successful run the sequencer removes
nothing: the `removeCallback` calls live only in the `catch` block, so
none of the three transient files is removed before the run reports
success (deletion is left to the `tmp` library's process-exit cleanup). -/
theorem c7_counterexample :
    (deployHelmChart tmpNamesW [] renderOkW c7Conf).error = none ∧
    removalsIn (deployHelmChart tmpNamesW [] renderOkW c7Conf).events = [] := by
  decide

/-- **C7 (amended).**  Once the credential artifacts have been built and
the temporary kubeconfig created, any error thrown in the execution phase
leads to the removal of all three transient files — the repository-list
file, the registry-authentication file and the temporary kubeconfig, in
that order — as the final events before the error propagates; on success
nothing is removed by the run. -/
theorem c7_cleanup_on_failure (nm : TmpNames) (fs : List String)
    (renderOne : String → Except String Unit) (conf : HelmDeployConfig)
    (hcmd : conf.command ≠ "") (hb : (buildHelmConfigFiles nm conf).2 = none) :
    ((deployHelmChart nm fs renderOne conf).error = none →
      removalsIn (deployHelmChart nm fs renderOne conf).events = []) ∧
    (∀ e, (deployHelmChart nm fs renderOne conf).error = some e →
      ∃ pre, (deployHelmChart nm fs renderOne conf).events =
        pre ++ [Event.removeFile nm.repository, Event.removeFile nm.registry,
                Event.removeFile nm.kubeconfig]) := by
  unfold deployHelmChart
  rw [if_neg hcmd, hb]
  cases ht : (deployTryBody nm fs renderOne conf).2 with
  | none =>
    simp only [ht]
    constructor
    · intro _
      simp [buildHelmConfigFiles_no_removal, deployTryBody_no_removal]
    · intro e he
      simp at he
  | some e =>
    simp only [ht]
    constructor
    · intro hnone
      simp at hnone
    · intro e' _
      exact ⟨_, rfl⟩

/-- Witness for C7: a failing run (delete without release) whose trace
ends with the three removals. -/
theorem c7_witness :
    ∃ pre, (deployHelmChart tmpNamesW [] renderOkW c1Conf).events =
      pre ++ [Event.removeFile tmpNamesW.repository,
              Event.removeFile tmpNamesW.registry,
              Event.removeFile tmpNamesW.kubeconfig] :=
  (c7_cleanup_on_failure tmpNamesW [] renderOkW c1Conf (by decide) (by decide)).2
    (missingMsg "release") (by decide)

/-! ## Claim C10 — inline kubeconfig precedence -/

/-- **C10 (confirmed).**  When `kubeconfig-inline` is supplied, the
sequencer writes it to the temporary kubeconfig file and overwrites
`kubeconfigPath` with that file's path before the operation-specific
branch runs — so the branch (here: delete) invokes the external tool with
`--kubeconfig <temporary-file>`, whatever `kubeconfig-path` the user
supplied. -/
theorem c10_kubeconfig_inline_precedence (nm : TmpNames) (fs : List String)
    (renderOne : String → Except String Unit) (conf : HelmDeployConfig)
    (hin : conf.kubeconfigInline ≠ "") (hkn : nm.kubeconfig ≠ "")
    (hcmd : conf.command = "delete") (hrel : conf.release ≠ "")
    (hb : (buildHelmConfigFiles nm conf).2 = none) :
    (kubeResolvedConfig nm conf).kubeconfigPath = nm.kubeconfig ∧
    Event.writeFile nm.kubeconfig conf.kubeconfigInline ∈
      (deployHelmChart nm fs renderOne conf).events ∧
    (execsIn (deployHelmChart nm fs renderOne conf).events).getLast? =
      some (["delete", "-n",
        (if conf.«namespace» = "" then "default" else conf.«namespace»)] ++
        ["--kubeconfig", nm.kubeconfig] ++ [conf.release]) := by
  have hcmd' : ¬conf.command = "" := by rw [hcmd]; decide
  have hrel' : ¬(kubeResolvedConfig nm conf).release = "" := by
    rw [kubeResolvedConfig_release]; exact hrel
  have hdel : helmDelete (kubeResolvedConfig nm conf) =
      ([Event.exec (["delete", "-n",
          (if conf.«namespace» = "" then "default" else conf.«namespace»)] ++
          ["--kubeconfig", nm.kubeconfig] ++ [conf.release]),
        Event.statusEvent "inactive"], none) := by
    unfold helmDelete
    rw [if_neg hrel']
    rw [kubeResolvedConfig_kubeconfigPath nm conf hin, if_pos hkn,
      kubeResolvedConfig_namespace, kubeResolvedConfig_release]
  have htry : deployTryBody nm fs renderOne conf =
      ([Event.exec ["version"]] ++
        (if (is_defined conf.repo || !conf.dependencies.isEmpty) = true then
          [Event.exec (repoUpdateArgs nm)] else []) ++
        (if conf.values ≠ "" then
          [Event.writeFile (pathJoin nm.dataHome "values.yml") conf.values] else []) ++
        [Event.writeFile nm.kubeconfig conf.kubeconfigInline] ++
        [Event.exec (["delete", "-n",
          (if conf.«namespace» = "" then "default" else conf.«namespace»)] ++
          ["--kubeconfig", nm.kubeconfig] ++ [conf.release]),
         Event.statusEvent "inactive"],
       none) := by
    unfold deployTryBody
    simp only [renderFiles, kubeResolvedConfig_command, hcmd, hdel, hin]
    simp [hin]
  have hrun : deployHelmChart nm fs renderOne conf =
      { events := [Event.statusEvent "pending"] ++ (buildHelmConfigFiles nm conf).1 ++
          [Event.createTmpFile nm.kubeconfig] ++ (deployTryBody nm fs renderOne conf).1
        error := none } := by
    unfold deployHelmChart
    rw [if_neg hcmd', hb, htry]
  refine ⟨kubeResolvedConfig_kubeconfigPath nm conf hin, ?_, ?_⟩
  · rw [hrun, htry]
    simp
  · rw [hrun, htry]
    simp [buildHelmConfigFiles_no_exec]
    split <;> simp

/-- Witness for C10: an inline kubeconfig together with an explicit
user-supplied `kubeconfig-path`; the delete invocation uses the temporary
file's path. -/
theorem c10_witness :
    (kubeResolvedConfig tmpNamesW
      { command := "delete", release := "test", «namespace» := "default",
        kubeconfigPath := "/home/user/.kube/config",
        kubeconfigInline := "apiVersion: v1" }).kubeconfigPath =
      tmpNamesW.kubeconfig ∧
    Event.writeFile tmpNamesW.kubeconfig "apiVersion: v1" ∈
      (deployHelmChart tmpNamesW [] renderOkW
        { command := "delete", release := "test", «namespace» := "default",
          kubeconfigPath := "/home/user/.kube/config",
          kubeconfigInline := "apiVersion: v1" }).events ∧
    (execsIn (deployHelmChart tmpNamesW [] renderOkW
        { command := "delete", release := "test", «namespace» := "default",
          kubeconfigPath := "/home/user/.kube/config",
          kubeconfigInline := "apiVersion: v1" }).events).getLast? =
      some (["delete", "-n", (if ("default" : String) = "" then "default" else "default")] ++
        ["--kubeconfig", tmpNamesW.kubeconfig] ++ ["test"]) :=
  c10_kubeconfig_inline_precedence tmpNamesW [] renderOkW
    { command := "delete", release := "test", «namespace» := "default",
      kubeconfigPath := "/home/user/.kube/config",
      kubeconfigInline := "apiVersion: v1" }
    (by decide) (by decide) rfl (by decide) (by decide)

end HelmDeployAction
